import Mathlib

/-!
Shallow embedding of the tango_exporter reconciliation engine
(src/tango_exporter/__init__.py).

Servers are identified by their name string.  The external collaborators
(TANGO database, dserver control channels, psutil, the Starter device)
are modelled as a World record of pure observation functions; one tick of
the gather_data loop is a function from World and engine state to an
Except value, where an error models a Python exception escaping the loop
body.  Prometheus gauges are modelled as a list of (metric, server) keyed
series; the host and db labels are constant for one exporter process and
are therefore omitted from the key.
-/

namespace TangoExporter

/-- The gauge names created in gather_data: the eight per-process metrics
of the process_metrics dict and the two metrics of the starter_metrics
dict. -/
inductive MetricName where
  | running
  | cpu_time_user
  | cpu_time_system
  | cpu_percent
  | mem_rss
  | mem_data
  | threads_n
  | dserver_ping
  | starter_controlled
  | starter_level
  deriving DecidableEq

/-- A metric series key: the gauge name together with the server label. -/
abbrev SeriesKey := MetricName × String

/-- The prometheus gauge store: the currently existing labelled series
with their values (floats in the source, modelled as integers since no
claim depends on fractional arithmetic). -/
abbrev Metrics := List (SeriesKey × Int)

/-- Does a series currently exist for this key? -/
def hasSeries (m : Metrics) (k : SeriesKey) : Bool :=
  m.any fun e => decide (e.1 = k)

/-- Current value of a series, if it exists. -/
def getSeries (m : Metrics) (k : SeriesKey) : Option Int :=
  (m.find? fun e => decide (e.1 = k)).map Prod.snd

/-- Every entry for key k holds value v. -/
def holdsAt (m : Metrics) (k : SeriesKey) (v : Int) : Bool :=
  m.all fun e => decide (e.1 = k → e.2 = v)

/-- Overwrite the value of every entry for key k. -/
def updateAll (m : Metrics) (k : SeriesKey) (v : Int) : Metrics :=
  m.map fun e => if e.1 = k then (k, v) else e

/-- gauge.labels(labels).set(v): create the series if absent, otherwise
update its value in place. -/
def setSeries (m : Metrics) (k : SeriesKey) (v : Int) : Metrics :=
  if hasSeries m k then updateAll m k v else m ++ [(k, v)]

/-- gauge.remove(labels): delete the series; raises if it does not
exist. -/
def removeSeries (m : Metrics) (k : SeriesKey) : Except Unit Metrics :=
  if hasSeries m k then .ok (m.filter fun e => decide (¬ e.1 = k))
  else .error ()

/-- The try/except-pass pattern around gauge.remove in gather_data:
deleting a series that was never created is not an error. -/
def tryRemove (m : Metrics) (k : SeriesKey) : Metrics :=
  match removeSeries m k with
  | .ok m2 => m2
  | .error _ => m

/-- Result of db.get_device_info for a dserver device: the exported flag
and the recorded PID. -/
structure DeviceInfo where
  exported : Bool
  pid : Nat
  deriving DecidableEq

/-- The external collaborators as pure observations, all indexed by
server name or PID.  deviceInfo and starterLines return none where the
source raises PyTango.DevFailed; osAlive is false where psutil raises
NoSuchProcess. -/
structure World where
  hostServers : List String
  deviceInfo : String → Option DeviceInfo
  pingOk : String → Bool
  pingTime : String → Int
  osAlive : Nat → Bool
  cpuUser : Nat → Int
  cpuSystem : Nat → Int
  cpuPercent : Nat → Int
  memRss : Nat → Int
  memData : Nat → Option Int
  numThreads : Nat → Int
  starterLines : Option (List String)

/-- get_server_process: look up the dserver registry entry; if exported,
re-probe the control channel (ping) to guard against PID reuse, and only
then open the psutil process handle.  none models every early return:
DevFailed from get_device_info, not exported, DevFailed from the ping,
and NoSuchProcess from psutil.Process. -/
def get_server_process (w : World) (name : String) : Option Nat :=
  match w.deviceInfo name with
  | none => none
  | some info =>
    if info.exported then
      if w.pingOk name then
        if w.osAlive info.pid then some info.pid else none
      else none
    else none

/-- get_local_servers: a dict of servers and their resolved processes;
db.get_host_server_list returns each server of the host once. -/
def get_local_servers (w : World) : List (String × Option Nat) :=
  w.hostServers.map fun s => (s, get_server_process w s)

/-- Python str.split for a one-character separator, here the tab,
working on the character list of the line. -/
def splitFields : List Char → List (List Char)
  | [] => [[]]
  | c :: rest =>
    match splitFields rest with
    | [] => if c = '\t' then [[], []] else [[c]]
    | f :: r => if c = '\t' then [] :: f :: r else (c :: f) :: r

/-- line.split for the tab separator, as used on each record of the
Servers attribute. -/
def pySplit (line : String) : List String :=
  (splitFields line.data).map fun cs => String.mk cs

/-- Value of a nonempty all-digit string, none otherwise. -/
def digitsValAux : List Char → Nat → Option Nat
  | [], acc => some acc
  | c :: rest, acc =>
    if c.isDigit then digitsValAux rest (acc * 10 + (c.toNat - 48)) else none

/-- Value of a nonempty all-digit character list. -/
def digitsVal : List Char → Option Nat
  | [] => none
  | cs => digitsValAux cs 0

/-- Python int() on the level field: a decimal integer literal with an
optional leading minus sign; anything else raises ValueError, modelled
as the error case.  (Python additionally strips surrounding whitespace,
which never occurs in the tab-split fields.) -/
def pyInt (s : String) : Except Unit Int :=
  match s.data with
  | '-' :: rest =>
    match digitsVal rest with
    | some n => .ok (-(n : Int))
    | none => .error ()
  | cs =>
    match digitsVal cs with
    | some n => .ok ((n : Int))
    | none => .error ()

/-- One entry of the parsed starter snapshot: ok is state == "ON", level
is int(level). -/
structure StarterInfo where
  ok : Bool
  level : Int
  deriving DecidableEq

/-- Python dict assignment result[server] = v: update in place if the
key exists, otherwise append. -/
def setEntry (m : List (String × StarterInfo)) (k : String) (v : StarterInfo) :
    List (String × StarterInfo) :=
  if m.any fun e => decide (e.1 = k) then
    m.map fun e => if e.1 = k then (k, v) else e
  else m ++ [(k, v)]

/-- Python dict lookup result.get(server). -/
def lookupEntry (m : List (String × StarterInfo)) (k : String) :
    Option StarterInfo :=
  (m.find? fun e => decide (e.1 = k)).map Prod.snd

/-- Python membership test: server in starter_servers. -/
def isControlled (m : List (String × StarterInfo)) (k : String) : Bool :=
  m.any fun e => decide (e.1 = k)

/-- The record loop of get_starter_servers.  Each line is tab-split into
exactly four fields (any other field count raises ValueError, which is
not caught anywhere: the error case).  A record is kept iff its level
field differs from "0"; the controlled field is read but unused. -/
def starterFold : List String → List (String × StarterInfo) →
    Except Unit (List (String × StarterInfo))
  | [], acc => .ok acc
  | line :: rest, acc =>
    match pySplit line with
    | [server, state, _controlled, level] =>
      if level ≠ "0" then
        match pyInt level with
        | .ok n => starterFold rest (setEntry acc server { ok := state == "ON", level := n })
        | .error e => .error e
      else starterFold rest acc
    | _ => .error ()

/-- get_starter_servers applied to the value of the Servers attribute
(the read_attribute call itself is part of the World). -/
def get_starter_servers (lines : List String) :
    Except Unit (List (String × StarterInfo)) :=
  starterFold lines []

/-- The iteration order of the process_metrics dict. -/
def processMetricNames : List MetricName :=
  [MetricName.running, MetricName.cpu_time_user, MetricName.cpu_time_system,
   MetricName.cpu_percent, MetricName.mem_rss, MetricName.mem_data,
   MetricName.threads_n, MetricName.dserver_ping]

/-- Body of the cleanup loop in the process-is-None branch of
gather_data: keep running at 0 while the server is still controlled,
remove every other per-process series (absence tolerated). -/
def cleanupStep (starter_servers : List (String × StarterInfo))
    (server : String) (acc : Metrics) (metric : MetricName) : Metrics :=
  if metric = MetricName.running ∧ isControlled starter_servers server = true then
    setSeries acc (MetricName.running, server) 0
  else tryRemove acc (metric, server)

/-- Body of the cleanup loop in the NoSuchProcess handler of
gather_data: remove every per-process series, running included. -/
def removeStep (server : String) (acc : Metrics) (metric : MetricName) :
    Metrics :=
  tryRemove acc (metric, server)

/-- One pass of the per-server body of gather_data.  Returns whether the
server stays in the servers dict (false models servers.pop) and the
updated gauges.  The some branch mirrors the big try block: psutil reads
(guarded by NoSuchProcess), the ping sub-try, and the starter_controlled
downgrade for servers outside the snapshot. -/
def serverStep (w : World) (starter_servers : List (String × StarterInfo))
    (m : Metrics) (server : String) (process : Option Nat) : Bool × Metrics :=
  match process with
  | none =>
    (false, processMetricNames.foldl (cleanupStep starter_servers server) m)
  | some pid =>
    if w.osAlive pid then
      let m := setSeries m (MetricName.cpu_time_user, server) (w.cpuUser pid)
      let m := setSeries m (MetricName.cpu_time_system, server) (w.cpuSystem pid)
      let m := setSeries m (MetricName.cpu_percent, server) (w.cpuPercent pid)
      let m := setSeries m (MetricName.mem_rss, server) (w.memRss pid)
      let m := match w.memData pid with
        | some d => setSeries m (MetricName.mem_data, server) d
        | none => m
      let m := setSeries m (MetricName.threads_n, server) (w.numThreads pid)
      let m :=
        if w.pingOk server then
          setSeries (setSeries m (MetricName.dserver_ping, server) (w.pingTime server))
            (MetricName.running, server) 1
        else
          setSeries (setSeries m (MetricName.dserver_ping, server) (-1))
            (MetricName.running, server) 0
      let m :=
        if isControlled starter_servers server then m
        else setSeries m (MetricName.starter_controlled, server) 0
      (true, m)
    else
      (false, processMetricNames.foldl (removeStep server) m)

/-- The for-loop over servers.items() of gather_data: Python 2 items()
iterates a snapshot of the dict, so pops only shape the resulting dict,
returned here as the list of kept entries. -/
def serversLoop (w : World) (starter_servers : List (String × StarterInfo)) :
    List (String × Option Nat) → Metrics → List (String × Option Nat) × Metrics
  | [], m => ([], m)
  | (server, process) :: rest, m =>
    let sp := serverStep w starter_servers m server process
    let tail := serversLoop w starter_servers rest sp.2
    (if sp.1 then (server, process) :: tail.1 else tail.1, tail.2)

/-- Mutable state of the gather_data loop: the servers dict, the last
starter snapshot, the gauge store, and the tick counter i. -/
structure EngineState where
  servers : List (String × Option Nat)
  starter_servers : List (String × StarterInfo)
  metrics : Metrics
  i : Nat
  deriving DecidableEq

/-- Publish starter_controlled=1 and starter_level for every snapshot
member (the refresh loop of gather_data). -/
def publishStarter (snap : List (String × StarterInfo)) (m : Metrics) : Metrics :=
  snap.foldl
    (fun acc e =>
      setSeries (setSeries acc (MetricName.starter_controlled, e.1) 1)
        (MetricName.starter_level, e.1) e.2.level)
    m

/-- One iteration of the while-True loop of gather_data.  Every 60th tick
(i % 60 == 0) the servers dict and the starter snapshot are refreshed
and the starter gauges published; there is no try/except around the
refresh, so a failing Servers read or a malformed record propagates as
the error case.  Then i is incremented and the per-server loop runs. -/
def tick (w : World) (s : EngineState) : Except Unit EngineState :=
  if s.i % 60 = 0 then
    let servers := get_local_servers w
    match w.starterLines with
    | none => .error ()
    | some lines =>
      match get_starter_servers lines with
      | .error e => .error e
      | .ok starter_servers =>
        let m := publishStarter starter_servers s.metrics
        let lp := serversLoop w starter_servers servers m
        .ok { servers := lp.1, starter_servers := starter_servers,
              metrics := lp.2, i := s.i + 1 }
  else
    let lp := serversLoop w s.starter_servers s.servers s.metrics
    .ok { servers := lp.1, starter_servers := s.starter_servers,
          metrics := lp.2, i := s.i + 1 }

/-- Invariant of the gauges for a server whose process handle pid is
alive this tick: every series written by the some-branch of the
per-server body holds exactly the value the branch writes (and exists).
This is what one pass of the branch establishes, and what makes a second
pass under the same World a no-op. -/
def aliveInv (w : World) (st : List (String × StarterInfo)) (srv : String)
    (pid : Nat) (m : Metrics) : Prop :=
  holdsAt m (MetricName.cpu_time_user, srv) (w.cpuUser pid) = true ∧
  hasSeries m (MetricName.cpu_time_user, srv) = true ∧
  holdsAt m (MetricName.cpu_time_system, srv) (w.cpuSystem pid) = true ∧
  hasSeries m (MetricName.cpu_time_system, srv) = true ∧
  holdsAt m (MetricName.cpu_percent, srv) (w.cpuPercent pid) = true ∧
  hasSeries m (MetricName.cpu_percent, srv) = true ∧
  holdsAt m (MetricName.mem_rss, srv) (w.memRss pid) = true ∧
  hasSeries m (MetricName.mem_rss, srv) = true ∧
  (∀ d, w.memData pid = some d →
    holdsAt m (MetricName.mem_data, srv) d = true ∧
    hasSeries m (MetricName.mem_data, srv) = true) ∧
  holdsAt m (MetricName.threads_n, srv) (w.numThreads pid) = true ∧
  hasSeries m (MetricName.threads_n, srv) = true ∧
  holdsAt m (MetricName.dserver_ping, srv)
    (if w.pingOk srv then w.pingTime srv else -1) = true ∧
  hasSeries m (MetricName.dserver_ping, srv) = true ∧
  holdsAt m (MetricName.running, srv) (if w.pingOk srv then 1 else 0) = true ∧
  hasSeries m (MetricName.running, srv) = true ∧
  (isControlled st srv = false →
    holdsAt m (MetricName.starter_controlled, srv) 0 = true ∧
    hasSeries m (MetricName.starter_controlled, srv) = true)

/-- A World in which nothing is registered, nothing pings and no PID is
alive; base for the concrete scenarios below. -/
def trivWorld : World where
  hostServers := []
  deviceInfo := fun _ => none
  pingOk := fun _ => false
  pingTime := fun _ => 0
  osAlive := fun _ => false
  cpuUser := fun _ => 0
  cpuSystem := fun _ => 0
  cpuPercent := fun _ => 0
  memRss := fun _ => 0
  memData := fun _ => none
  numThreads := fun _ => 0
  starterLines := some []

/-- World for C1: server A is exported with a live PID but its control
channel does not answer the ping (PID reuse after a crash); server B is
exported, alive and pingable. -/
def c1World : World :=
  { trivWorld with
    deviceInfo := fun n =>
      if n = "A" then some { exported := true, pid := 11 }
      else some { exported := true, pid := 7 }
    pingOk := fun n => decide (n ≠ "A")
    osAlive := fun _ => true }

/-- Scenario for C4: server A is tracked with a stale handle (PID 5, no
longer alive), is in the starter snapshot, and has a live running
series. -/
def c4State : EngineState where
  servers := [("A", some 5)]
  starter_servers := [("A", { ok := true, level := 3 })]
  metrics := [((MetricName.running, "A"), 1)]
  i := 1

/-- Scenario for the C4 witness, first path: server A is tracked with no
process, still in the starter snapshot, with a live running series. -/
def c4bState : EngineState where
  servers := [("A", none)]
  starter_servers := [("A", { ok := true, level := 3 })]
  metrics := [((MetricName.running, "A"), 1)]
  i := 1

/-- World for the C6 witness: PID 7 is alive, PID 5 is not, everything
pings. -/
def c6AliveWorld : World :=
  { trivWorld with
    osAlive := fun p => decide (p = 7)
    pingOk := fun _ => true
    pingTime := fun _ => 9
    cpuUser := fun _ => 2
    cpuSystem := fun _ => 3
    cpuPercent := fun _ => 4
    memRss := fun _ => 6
    numThreads := fun _ => 8 }

/-- Scenario for the C6 witness: B (dead PID 5) is iterated before A
(live PID 7) in the same tick. -/
def c6PairState : EngineState where
  servers := [("B", some 5), ("A", some 7)]
  starter_servers := []
  metrics := []
  i := 1

/-- World for the C7 witness: the process is alive with readings, but
the control channel never answers. -/
def c7World : World :=
  { trivWorld with
    osAlive := fun _ => true
    pingOk := fun _ => false
    cpuUser := fun _ => 2
    cpuSystem := fun _ => 3
    cpuPercent := fun _ => 4
    memRss := fun _ => 6
    memData := fun _ => some 4
    numThreads := fun _ => 8 }

/-- Scenario for the C7 witness: one tracked server with a live PID. -/
def c7State : EngineState where
  servers := [("A", some 7)]
  starter_servers := []
  metrics := []
  i := 1

/-- Scenario for C5: server A is tracked without a process, absent from
the snapshot, and carries a starter_controlled series from an earlier
tick. -/
def c5State : EngineState where
  servers := [("A", none)]
  starter_servers := []
  metrics := [((MetricName.starter_controlled, "A"), 0)]
  i := 1

/-- A World whose Servers attribute read fails (DevFailed). -/
def failWorld : World :=
  { trivWorld with starterLines := none }

/-- Scenario for C6: a refresh tick (i = 0) whose supervisor fetch
fails. -/
def c6State : EngineState where
  servers := [("A", some 5)]
  starter_servers := []
  metrics := []
  i := 0

/-- Scenario for C8: a refresh tick (i = 60) with a previously held
snapshot and gauges, whose supervisor fetch fails. -/
def c8State : EngineState where
  servers := [("B", some 3)]
  starter_servers := [("B", { ok := true, level := 2 })]
  metrics := [((MetricName.running, "B"), 1)]
  i := 60

/-- World for C9: one registered server A, exported with PID 7, pingable
and alive, with fixed resource readings; the starter table is empty. -/
def c9World : World :=
  { trivWorld with
    hostServers := ["A"]
    deviceInfo := fun _ => some { exported := true, pid := 7 }
    pingOk := fun _ => true
    pingTime := fun _ => 5
    osAlive := fun _ => true
    cpuUser := fun _ => 2
    cpuSystem := fun _ => 3
    cpuPercent := fun _ => 4
    memRss := fun _ => 6
    numThreads := fun _ => 8 }

/-- Scenario for C9: the engine has not yet observed A (A started after
the last refresh), and tick 59 is followed by the refresh tick 60. -/
def c9State : EngineState where
  servers := []
  starter_servers := []
  metrics := []
  i := 59

/-- State after the first C9 tick: unchanged except for the counter. -/
def c9Mid : EngineState where
  servers := []
  starter_servers := []
  metrics := []
  i := 60

/-- An empty engine state about to run its first (refresh) tick. -/
def emptyState0 : EngineState where
  servers := []
  starter_servers := []
  metrics := []
  i := 0

/-- An empty engine state after one tick. -/
def emptyState1 : EngineState where
  servers := []
  starter_servers := []
  metrics := []
  i := 1

/-- Engine state after c5State's tick, with the starter_controlled
series for A surviving. -/
def c5After : EngineState where
  servers := []
  starter_servers := []
  metrics := [((MetricName.starter_controlled, "A"), 0)]
  i := 2

/-! Basic lemmas about the gauge store operations. -/

theorem hasSeries_cons (e : SeriesKey × Int) (rest : Metrics) (k : SeriesKey) :
    hasSeries (e :: rest) k = (decide (e.1 = k) || hasSeries rest k) := rfl

theorem getSeries_cons (e : SeriesKey × Int) (rest : Metrics) (k : SeriesKey) :
    getSeries (e :: rest) k = if e.1 = k then some e.2 else getSeries rest k := by
  by_cases h : e.1 = k
  · simp [getSeries, List.find?_cons, h]
  · simp [getSeries, List.find?_cons, h]

theorem holdsAt_cons (e : SeriesKey × Int) (rest : Metrics) (k : SeriesKey) (v : Int) :
    holdsAt (e :: rest) k v = (decide (e.1 = k → e.2 = v) && holdsAt rest k v) := rfl

theorem getSeries_eq_none (m : Metrics) (k : SeriesKey) (h : hasSeries m k = false) :
    getSeries m k = none := by
  induction m with
  | nil => rfl
  | cons e rest ih =>
    rw [hasSeries_cons] at h
    simp only [Bool.or_eq_false_iff, decide_eq_false_iff_not] at h
    rw [getSeries_cons, if_neg h.1]
    exact ih h.2

theorem holdsAt_of_not_has (m : Metrics) (k : SeriesKey) (v : Int)
    (h : hasSeries m k = false) : holdsAt m k v = true := by
  induction m with
  | nil => rfl
  | cons e rest ih =>
    rw [hasSeries_cons] at h
    simp only [Bool.or_eq_false_iff, decide_eq_false_iff_not] at h
    rw [holdsAt_cons, ih h.2]
    simp [h.1]

theorem getSeries_of_holdsAt (m : Metrics) (k : SeriesKey) (v : Int)
    (hh : hasSeries m k = true) (hv : holdsAt m k v = true) :
    getSeries m k = some v := by
  induction m with
  | nil => simp [hasSeries] at hh
  | cons e rest ih =>
    rw [hasSeries_cons] at hh
    rw [holdsAt_cons] at hv
    simp only [Bool.and_eq_true, decide_eq_true_eq] at hv
    rw [getSeries_cons]
    by_cases he : e.1 = k
    · rw [if_pos he, hv.1 he]
    · rw [if_neg he]
      simp only [Bool.or_eq_true, decide_eq_true_eq] at hh
      exact ih (hh.resolve_left he) hv.2

theorem updateAll_cons (e : SeriesKey × Int) (rest : Metrics) (k : SeriesKey)
    (v : Int) :
    updateAll (e :: rest) k v =
      (if e.1 = k then (k, v) else e) :: updateAll rest k v := rfl

theorem hasSeries_updateAll (m : Metrics) (k k' : SeriesKey) (v : Int) :
    hasSeries (updateAll m k v) k' = hasSeries m k' := by
  induction m with
  | nil => rfl
  | cons e rest ih =>
    rw [updateAll_cons]
    by_cases h : e.1 = k
    · rw [if_pos h, hasSeries_cons, hasSeries_cons, ih, h]
    · rw [if_neg h, hasSeries_cons, hasSeries_cons, ih]

theorem getSeries_updateAll_self (m : Metrics) (k : SeriesKey) (v : Int) :
    getSeries (updateAll m k v) k = if hasSeries m k then some v else none := by
  induction m with
  | nil => rfl
  | cons e rest ih =>
    rw [updateAll_cons, hasSeries_cons]
    by_cases h : e.1 = k
    · rw [if_pos h, getSeries_cons]
      simp [h]
    · rw [if_neg h, getSeries_cons, if_neg h, ih]
      simp [h]

theorem getSeries_updateAll_ne (m : Metrics) (k k' : SeriesKey) (v : Int)
    (h : k' ≠ k) : getSeries (updateAll m k v) k' = getSeries m k' := by
  induction m with
  | nil => rfl
  | cons e rest ih =>
    rw [updateAll_cons, getSeries_cons, getSeries_cons]
    by_cases he : e.1 = k
    · have h1 : ¬ ((k, v).1 = k') := Ne.symm h
      have h2 : ¬ (e.1 = k') := by rw [he]; exact Ne.symm h
      rw [if_pos he, if_neg h1, if_neg h2, ih]
    · rw [if_neg he, ih]

theorem holdsAt_updateAll_self (m : Metrics) (k : SeriesKey) (v : Int) :
    holdsAt (updateAll m k v) k v = true := by
  induction m with
  | nil => rfl
  | cons e rest ih =>
    rw [updateAll_cons, holdsAt_cons, ih]
    by_cases h : e.1 = k
    · rw [if_pos h]
      simp
    · rw [if_neg h]
      simp [h]

theorem holdsAt_updateAll_ne (m : Metrics) (k k' : SeriesKey) (v v' : Int)
    (h : k' ≠ k) : holdsAt (updateAll m k v) k' v' = holdsAt m k' v' := by
  induction m with
  | nil => rfl
  | cons e rest ih =>
    rw [updateAll_cons, holdsAt_cons, holdsAt_cons, ih]
    by_cases he : e.1 = k
    · rw [if_pos he]
      have h1 : ¬ ((k, v).1 = k') := Ne.symm h
      have h2 : ¬ (e.1 = k') := by rw [he]; exact Ne.symm h
      simp [h1, h2]
    · rw [if_neg he]

theorem updateAll_fixed (m : Metrics) (k : SeriesKey) (v : Int)
    (h : holdsAt m k v = true) : updateAll m k v = m := by
  induction m with
  | nil => rfl
  | cons e rest ih =>
    obtain ⟨a, b⟩ := e
    rw [holdsAt_cons] at h
    simp only [Bool.and_eq_true, decide_eq_true_eq] at h
    obtain ⟨h1, h2⟩ := h
    by_cases he : a = k
    · subst he
      rw [h1 rfl]
      simp [updateAll] at ih ⊢
      exact ih h2
    · simp only [updateAll, List.map_cons] at ih ⊢
      rw [if_neg he]
      rw [ih h2]

theorem hasSeries_append_single (m : Metrics) (k k' : SeriesKey) (v : Int) :
    hasSeries (m ++ [(k, v)]) k' = (hasSeries m k' || decide (k = k')) := by
  simp [hasSeries, List.any_append]

theorem getSeries_append_single_of_none (m : Metrics) (k : SeriesKey) (v : Int)
    (h : getSeries m k = none) : getSeries (m ++ [(k, v)]) k = some v := by
  induction m with
  | nil => simp [getSeries_cons]
  | cons e rest ih =>
    rw [getSeries_cons] at h
    rw [List.cons_append, getSeries_cons]
    by_cases he : e.1 = k
    · rw [if_pos he] at h
      exact absurd h (by simp)
    · rw [if_neg he] at h
      rw [if_neg he]
      exact ih h

theorem getSeries_append_single_ne (m : Metrics) (k k' : SeriesKey) (v : Int)
    (h : k' ≠ k) : getSeries (m ++ [(k, v)]) k' = getSeries m k' := by
  induction m with
  | nil => simp [getSeries_cons, Ne.symm h, getSeries]
  | cons e rest ih =>
    rw [List.cons_append, getSeries_cons, getSeries_cons]
    by_cases he : e.1 = k'
    · rw [if_pos he, if_pos he]
    · rw [if_neg he, if_neg he, ih]

theorem holdsAt_append_single (m : Metrics) (k k' : SeriesKey) (v v' : Int) :
    holdsAt (m ++ [(k, v)]) k' v' = (holdsAt m k' v' && decide (k = k' → v = v')) := by
  simp [holdsAt, List.all_append]

/-! Lemmas about setSeries. -/

theorem hasSeries_set_self (m : Metrics) (k : SeriesKey) (v : Int) :
    hasSeries (setSeries m k v) k = true := by
  unfold setSeries
  by_cases h : hasSeries m k
  · simp [h, hasSeries_updateAll]
  · simp [h, hasSeries_append_single]

theorem hasSeries_set_ne (m : Metrics) (k k' : SeriesKey) (v : Int)
    (h : k' ≠ k) : hasSeries (setSeries m k v) k' = hasSeries m k' := by
  unfold setSeries
  by_cases hh : hasSeries m k
  · simp [hh, hasSeries_updateAll]
  · simp [hh, hasSeries_append_single, Ne.symm h]

theorem getSeries_set_self (m : Metrics) (k : SeriesKey) (v : Int) :
    getSeries (setSeries m k v) k = some v := by
  unfold setSeries
  by_cases h : hasSeries m k
  · simp [h, getSeries_updateAll_self]
  · simp only [h, if_false, Bool.false_eq_true]
    exact getSeries_append_single_of_none m k v (getSeries_eq_none m k (by simpa using h))

theorem getSeries_set_ne (m : Metrics) (k k' : SeriesKey) (v : Int)
    (h : k' ≠ k) : getSeries (setSeries m k v) k' = getSeries m k' := by
  unfold setSeries
  by_cases hh : hasSeries m k
  · simp [hh, getSeries_updateAll_ne _ _ _ _ h]
  · simp [hh, getSeries_append_single_ne _ _ _ _ h]

theorem holdsAt_set_self (m : Metrics) (k : SeriesKey) (v : Int) :
    holdsAt (setSeries m k v) k v = true := by
  unfold setSeries
  by_cases h : hasSeries m k
  · simp [h, holdsAt_updateAll_self]
  · simp [h, holdsAt_append_single, holdsAt_of_not_has m k v (by simpa using h)]

theorem holdsAt_set_ne (m : Metrics) (k k' : SeriesKey) (v v' : Int)
    (h : k' ≠ k) : holdsAt (setSeries m k v) k' v' = holdsAt m k' v' := by
  unfold setSeries
  by_cases hh : hasSeries m k
  · simp [hh, holdsAt_updateAll_ne _ _ _ _ _ h]
  · simp [hh, holdsAt_append_single, Ne.symm h]

theorem setSeries_fixed (m : Metrics) (k : SeriesKey) (v : Int)
    (h1 : hasSeries m k = true) (h2 : holdsAt m k v = true) :
    setSeries m k v = m := by
  unfold setSeries
  rw [if_pos h1, updateAll_fixed m k v h2]

/-! Lemmas about tryRemove. -/

theorem remFilter_cons (e : SeriesKey × Int) (rest : Metrics) (k : SeriesKey) :
    ((e :: rest).filter fun x => decide (¬ x.1 = k)) =
      if e.1 = k then rest.filter (fun x => decide (¬ x.1 = k))
      else e :: rest.filter (fun x => decide (¬ x.1 = k)) := by
  by_cases h : e.1 = k
  · rw [if_pos h, List.filter_cons, if_neg (by simp [h])]
  · rw [if_neg h, List.filter_cons, if_pos (by simp [h])]

theorem filter_ne_of_not_has (m : Metrics) (k : SeriesKey)
    (h : hasSeries m k = false) :
    (m.filter fun e => decide (¬ e.1 = k)) = m := by
  induction m with
  | nil => rfl
  | cons e rest ih =>
    rw [hasSeries_cons] at h
    simp only [Bool.or_eq_false_iff, decide_eq_false_iff_not] at h
    rw [remFilter_cons, if_neg h.1, ih h.2]

theorem tryRemove_eq_filter (m : Metrics) (k : SeriesKey) :
    tryRemove m k = m.filter fun e => decide (¬ e.1 = k) := by
  unfold tryRemove removeSeries
  by_cases h : hasSeries m k
  · rw [if_pos h]
  · rw [if_neg h, filter_ne_of_not_has m k (by simpa using h)]

theorem hasSeries_rem_self (m : Metrics) (k : SeriesKey) :
    hasSeries (tryRemove m k) k = false := by
  rw [tryRemove_eq_filter]
  induction m with
  | nil => rfl
  | cons e rest ih =>
    rw [remFilter_cons]
    by_cases he : e.1 = k
    · rw [if_pos he]
      exact ih
    · rw [if_neg he, hasSeries_cons, ih]
      simp [he]

theorem hasSeries_rem_ne (m : Metrics) (k k' : SeriesKey) (h : k' ≠ k) :
    hasSeries (tryRemove m k) k' = hasSeries m k' := by
  rw [tryRemove_eq_filter]
  induction m with
  | nil => rfl
  | cons e rest ih =>
    rw [remFilter_cons]
    by_cases he : e.1 = k
    · have h2 : ¬ (e.1 = k') := by rw [he]; exact Ne.symm h
      rw [if_pos he, ih, hasSeries_cons]
      simp [h2]
    · rw [if_neg he, hasSeries_cons, hasSeries_cons, ih]

theorem getSeries_rem_self (m : Metrics) (k : SeriesKey) :
    getSeries (tryRemove m k) k = none :=
  getSeries_eq_none _ _ (hasSeries_rem_self m k)

theorem getSeries_rem_ne (m : Metrics) (k k' : SeriesKey) (h : k' ≠ k) :
    getSeries (tryRemove m k) k' = getSeries m k' := by
  rw [tryRemove_eq_filter]
  induction m with
  | nil => rfl
  | cons e rest ih =>
    rw [remFilter_cons]
    by_cases he : e.1 = k
    · have h2 : ¬ (e.1 = k') := by rw [he]; exact Ne.symm h
      rw [if_pos he, ih, getSeries_cons, if_neg h2]
    · rw [if_neg he, getSeries_cons, getSeries_cons, ih]

theorem holdsAt_rem_ne (m : Metrics) (k k' : SeriesKey) (v' : Int)
    (h : k' ≠ k) : holdsAt (tryRemove m k) k' v' = holdsAt m k' v' := by
  rw [tryRemove_eq_filter]
  induction m with
  | nil => rfl
  | cons e rest ih =>
    rw [remFilter_cons]
    by_cases he : e.1 = k
    · have h2 : ¬ (e.1 = k') := by rw [he]; exact Ne.symm h
      rw [if_pos he, ih, holdsAt_cons]
      simp [h2]
    · rw [if_neg he, holdsAt_cons, holdsAt_cons, ih]

/-! Frame lemmas: every gauge operation of the per-server body touches
only keys labelled with that server, so any observation of another
server's keys is unchanged. -/

theorem ne_of_snd_ne {q : SeriesKey} {name : MetricName} {srv : String}
    (h : q.2 ≠ srv) : (name, srv) ≠ q :=
  fun hc => h (by rw [← hc])

theorem foldl_cleanup_frame {α : Sort _} (A : Metrics → α)
    (st : List (String × StarterInfo)) (b : String) :
    ∀ (L : List MetricName) (m : Metrics),
      (∀ m2 v, A (setSeries m2 (MetricName.running, b) v) = A m2) →
      (∀ m2 n, n ∈ L → A (tryRemove m2 (n, b)) = A m2) →
      A (L.foldl (cleanupStep st b) m) = A m := by
  intro L
  induction L with
  | nil => intro m _ _; rfl
  | cons n rest ih =>
    intro m hset hrem
    rw [List.foldl_cons,
      ih _ hset (fun m2 n2 hn => hrem m2 n2 (List.mem_cons_of_mem _ hn))]
    unfold cleanupStep
    by_cases hc : n = MetricName.running ∧ isControlled st b = true
    · rw [if_pos hc, hset]
    · rw [if_neg hc, hrem m n (List.mem_cons_self _ _)]

theorem foldl_remove_frame {α : Sort _} (A : Metrics → α) (b : String) :
    ∀ (L : List MetricName) (m : Metrics),
      (∀ m2 n, n ∈ L → A (tryRemove m2 (n, b)) = A m2) →
      A (L.foldl (removeStep b) m) = A m := by
  intro L
  induction L with
  | nil => intro m _; rfl
  | cons n rest ih =>
    intro m hrem
    rw [List.foldl_cons,
      ih _ (fun m2 n2 hn => hrem m2 n2 (List.mem_cons_of_mem _ hn))]
    exact hrem m n (List.mem_cons_self _ _)

theorem serverStep_frame {α : Sort _} (A : Metrics → α)
    (w : World) (st : List (String × StarterInfo)) (b : String)
    (p : Option Nat) (m : Metrics)
    (hset : ∀ m2 (q : SeriesKey) v, q.2 = b → A (setSeries m2 q v) = A m2)
    (hrem : ∀ m2 (q : SeriesKey), q.2 = b → A (tryRemove m2 q) = A m2) :
    A ((serverStep w st m b p).2) = A m := by
  cases p with
  | none =>
    exact foldl_cleanup_frame A st b processMetricNames m
      (fun m2 v => hset m2 _ v rfl) (fun m2 n _ => hrem m2 _ rfl)
  | some pid =>
    by_cases ha : w.osAlive pid = true
    · rcases hmd : w.memData pid with _ | d <;>
        by_cases hp : w.pingOk b = true <;>
        by_cases hctl : isControlled st b = true <;>
        simp [serverStep, ha, hmd, hp, hctl, hset, hrem]
    · have ha2 : w.osAlive pid = false := by simpa using ha
      simp only [serverStep, ha2, Bool.false_eq_true, if_false]
      exact foldl_remove_frame A b processMetricNames m
        (fun m2 n _ => hrem m2 _ rfl)

theorem serversLoop_cons (w : World) (st : List (String × StarterInfo))
    (server : String) (process : Option Nat)
    (rest : List (String × Option Nat)) (m : Metrics) :
    serversLoop w st ((server, process) :: rest) m =
      (if (serverStep w st m server process).1 then
          (server, process) ::
            (serversLoop w st rest (serverStep w st m server process).2).1
        else (serversLoop w st rest (serverStep w st m server process).2).1,
       (serversLoop w st rest (serverStep w st m server process).2).2) := rfl

theorem serversLoop_frame {α : Sort _} (A : Metrics → α) (srv : String)
    (w : World) (st : List (String × StarterInfo))
    (hset : ∀ m2 (q : SeriesKey) v, q.2 ≠ srv → A (setSeries m2 q v) = A m2)
    (hrem : ∀ m2 (q : SeriesKey), q.2 ≠ srv → A (tryRemove m2 q) = A m2) :
    ∀ (entries : List (String × Option Nat)) (m : Metrics),
      srv ∉ entries.map Prod.fst →
      A ((serversLoop w st entries m).2) = A m := by
  intro entries
  induction entries with
  | nil => intro m _; rfl
  | cons e rest ih =>
    intro m hmem
    obtain ⟨b, p⟩ := e
    rw [List.map_cons] at hmem
    simp only [List.mem_cons, not_or] at hmem
    rw [serversLoop_cons]
    show A ((serversLoop w st rest ((serverStep w st m b p).2)).2) = A m
    rw [ih _ hmem.2]
    exact serverStep_frame A w st b p m
      (fun m2 q v hq => hset m2 q v (by rw [hq]; exact Ne.symm hmem.1))
      (fun m2 q hq => hrem m2 q (by rw [hq]; exact Ne.symm hmem.1))

theorem getSeries_serversLoop_frame (w : World)
    (st : List (String × StarterInfo)) (srv : String) (name : MetricName)
    (entries : List (String × Option Nat)) (m : Metrics)
    (h : srv ∉ entries.map Prod.fst) :
    getSeries ((serversLoop w st entries m).2) (name, srv) =
      getSeries m (name, srv) :=
  serversLoop_frame (fun m2 => getSeries m2 (name, srv)) srv w st
    (fun m2 q v hq => getSeries_set_ne m2 q (name, srv) v (ne_of_snd_ne hq))
    (fun m2 q hq => getSeries_rem_ne m2 q (name, srv) (ne_of_snd_ne hq))
    entries m h

theorem hasSeries_serversLoop_frame (w : World)
    (st : List (String × StarterInfo)) (srv : String) (name : MetricName)
    (entries : List (String × Option Nat)) (m : Metrics)
    (h : srv ∉ entries.map Prod.fst) :
    hasSeries ((serversLoop w st entries m).2) (name, srv) =
      hasSeries m (name, srv) :=
  serversLoop_frame (fun m2 => hasSeries m2 (name, srv)) srv w st
    (fun m2 q v hq => hasSeries_set_ne m2 q (name, srv) v (ne_of_snd_ne hq))
    (fun m2 q hq => hasSeries_rem_ne m2 q (name, srv) (ne_of_snd_ne hq))
    entries m h

theorem holdsAt_serversLoop_frame (w : World)
    (st : List (String × StarterInfo)) (srv : String) (name : MetricName)
    (v : Int) (entries : List (String × Option Nat)) (m : Metrics)
    (h : srv ∉ entries.map Prod.fst) :
    holdsAt ((serversLoop w st entries m).2) (name, srv) v =
      holdsAt m (name, srv) v :=
  serversLoop_frame (fun m2 => holdsAt m2 (name, srv) v) srv w st
    (fun m2 q v2 hq => holdsAt_set_ne m2 q (name, srv) v2 v (ne_of_snd_ne hq))
    (fun m2 q hq => holdsAt_rem_ne m2 q (name, srv) v (ne_of_snd_ne hq))
    entries m h

/-! The alive-server invariant: one pass of the some-branch of the
per-server body establishes it, other servers' passes preserve it, and
under it a second pass under the same World is the identity. -/

theorem serverStep_keep_none (w : World) (st : List (String × StarterInfo))
    (srv : String) (m : Metrics) :
    (serverStep w st m srv none).1 = false := rfl

theorem serverStep_keep_some (w : World) (st : List (String × StarterInfo))
    (srv : String) (pid : Nat) (m : Metrics) :
    (serverStep w st m srv (some pid)).1 = w.osAlive pid := by
  by_cases ha : w.osAlive pid = true
  · simp [serverStep, ha]
  · have ha2 : w.osAlive pid = false := by simpa using ha
    simp [serverStep, ha2]

theorem serverStep_alive_inv (w : World) (st : List (String × StarterInfo))
    (srv : String) (pid : Nat) (m : Metrics) (ha : w.osAlive pid = true) :
    aliveInv w st srv pid ((serverStep w st m srv (some pid)).2) := by
  rcases hmd : w.memData pid with _ | d <;>
    by_cases hp : w.pingOk srv = true <;>
    by_cases hctl : isControlled st srv = true <;>
    simp [aliveInv, serverStep, ha, hmd, hp, hctl, holdsAt_set_self,
      holdsAt_set_ne, hasSeries_set_self, hasSeries_set_ne]

theorem serverStep_alive_fixed (w : World) (st : List (String × StarterInfo))
    (srv : String) (pid : Nat) (m : Metrics) (ha : w.osAlive pid = true)
    (hinv : aliveInv w st srv pid m) :
    serverStep w st m srv (some pid) = (true, m) := by
  obtain ⟨h1v, h1h, h2v, h2h, h3v, h3h, h4v, h4h, hmdI, h6v, h6h,
    h7v, h7h, h8v, h8h, hctlI⟩ := hinv
  rcases hmd : w.memData pid with _ | d <;>
    by_cases hp : w.pingOk srv = true <;>
    by_cases hctl : isControlled st srv = true
  · rw [if_pos hp] at h7v h8v
    simp only [serverStep, ha, hmd, hp, hctl, if_true]
    rw [setSeries_fixed _ _ _ h1h h1v, setSeries_fixed _ _ _ h2h h2v,
      setSeries_fixed _ _ _ h3h h3v, setSeries_fixed _ _ _ h4h h4v,
      setSeries_fixed _ _ _ h6h h6v, setSeries_fixed _ _ _ h7h h7v,
      setSeries_fixed _ _ _ h8h h8v]
  · rw [if_pos hp] at h7v h8v
    obtain ⟨hscv, hsch⟩ := hctlI (by simpa using hctl)
    simp only [serverStep, ha, hmd, hp, hctl, if_true, Bool.false_eq_true,
      if_false]
    rw [setSeries_fixed _ _ _ h1h h1v, setSeries_fixed _ _ _ h2h h2v,
      setSeries_fixed _ _ _ h3h h3v, setSeries_fixed _ _ _ h4h h4v,
      setSeries_fixed _ _ _ h6h h6v, setSeries_fixed _ _ _ h7h h7v,
      setSeries_fixed _ _ _ h8h h8v, setSeries_fixed _ _ _ hsch hscv]
  · rw [if_neg hp] at h7v h8v
    have hp2 : w.pingOk srv = false := by simpa using hp
    simp only [serverStep, ha, hmd, hp2, hctl, if_true, Bool.false_eq_true,
      if_false]
    rw [setSeries_fixed _ _ _ h1h h1v, setSeries_fixed _ _ _ h2h h2v,
      setSeries_fixed _ _ _ h3h h3v, setSeries_fixed _ _ _ h4h h4v,
      setSeries_fixed _ _ _ h6h h6v, setSeries_fixed _ _ _ h7h h7v,
      setSeries_fixed _ _ _ h8h h8v]
  · rw [if_neg hp] at h7v h8v
    have hp2 : w.pingOk srv = false := by simpa using hp
    obtain ⟨hscv, hsch⟩ := hctlI (by simpa using hctl)
    simp only [serverStep, ha, hmd, hp2, hctl, if_true, Bool.false_eq_true,
      if_false]
    rw [setSeries_fixed _ _ _ h1h h1v, setSeries_fixed _ _ _ h2h h2v,
      setSeries_fixed _ _ _ h3h h3v, setSeries_fixed _ _ _ h4h h4v,
      setSeries_fixed _ _ _ h6h h6v, setSeries_fixed _ _ _ h7h h7v,
      setSeries_fixed _ _ _ h8h h8v, setSeries_fixed _ _ _ hsch hscv]
  · rw [if_pos hp] at h7v h8v
    obtain ⟨hmv, hmh⟩ := hmdI d hmd
    simp only [serverStep, ha, hmd, hp, hctl, if_true]
    rw [setSeries_fixed _ _ _ h1h h1v, setSeries_fixed _ _ _ h2h h2v,
      setSeries_fixed _ _ _ h3h h3v, setSeries_fixed _ _ _ h4h h4v,
      setSeries_fixed _ _ _ hmh hmv, setSeries_fixed _ _ _ h6h h6v,
      setSeries_fixed _ _ _ h7h h7v, setSeries_fixed _ _ _ h8h h8v]
  · rw [if_pos hp] at h7v h8v
    obtain ⟨hmv, hmh⟩ := hmdI d hmd
    obtain ⟨hscv, hsch⟩ := hctlI (by simpa using hctl)
    simp only [serverStep, ha, hmd, hp, hctl, if_true, Bool.false_eq_true,
      if_false]
    rw [setSeries_fixed _ _ _ h1h h1v, setSeries_fixed _ _ _ h2h h2v,
      setSeries_fixed _ _ _ h3h h3v, setSeries_fixed _ _ _ h4h h4v,
      setSeries_fixed _ _ _ hmh hmv, setSeries_fixed _ _ _ h6h h6v,
      setSeries_fixed _ _ _ h7h h7v, setSeries_fixed _ _ _ h8h h8v,
      setSeries_fixed _ _ _ hsch hscv]
  · rw [if_neg hp] at h7v h8v
    have hp2 : w.pingOk srv = false := by simpa using hp
    obtain ⟨hmv, hmh⟩ := hmdI d hmd
    simp only [serverStep, ha, hmd, hp2, hctl, if_true, Bool.false_eq_true,
      if_false]
    rw [setSeries_fixed _ _ _ h1h h1v, setSeries_fixed _ _ _ h2h h2v,
      setSeries_fixed _ _ _ h3h h3v, setSeries_fixed _ _ _ h4h h4v,
      setSeries_fixed _ _ _ hmh hmv, setSeries_fixed _ _ _ h6h h6v,
      setSeries_fixed _ _ _ h7h h7v, setSeries_fixed _ _ _ h8h h8v]
  · rw [if_neg hp] at h7v h8v
    have hp2 : w.pingOk srv = false := by simpa using hp
    obtain ⟨hmv, hmh⟩ := hmdI d hmd
    obtain ⟨hscv, hsch⟩ := hctlI (by simpa using hctl)
    simp only [serverStep, ha, hmd, hp2, hctl, if_true, Bool.false_eq_true,
      if_false]
    rw [setSeries_fixed _ _ _ h1h h1v, setSeries_fixed _ _ _ h2h h2v,
      setSeries_fixed _ _ _ h3h h3v, setSeries_fixed _ _ _ h4h h4v,
      setSeries_fixed _ _ _ hmh hmv, setSeries_fixed _ _ _ h6h h6v,
      setSeries_fixed _ _ _ h7h h7v, setSeries_fixed _ _ _ h8h h8v,
      setSeries_fixed _ _ _ hsch hscv]

theorem aliveInv_serversLoop_frame (w : World)
    (st : List (String × StarterInfo)) (srv : String) (pid : Nat)
    (entries : List (String × Option Nat)) (m : Metrics)
    (h : srv ∉ entries.map Prod.fst)
    (hinv : aliveInv w st srv pid m) :
    aliveInv w st srv pid ((serversLoop w st entries m).2) := by
  have hg : ∀ (name : MetricName) (v2 : Int),
      holdsAt ((serversLoop w st entries m).2) (name, srv) v2 =
        holdsAt m (name, srv) v2 :=
    fun name v2 => holdsAt_serversLoop_frame w st srv name v2 entries m h
  have hh : ∀ (name : MetricName),
      hasSeries ((serversLoop w st entries m).2) (name, srv) =
        hasSeries m (name, srv) :=
    fun name => hasSeries_serversLoop_frame w st srv name entries m h
  simp only [aliveInv] at hinv ⊢
  simp only [hg, hh]
  exact hinv

theorem serversLoop_kept (w : World) (st : List (String × StarterInfo)) :
    ∀ (entries : List (String × Option Nat)) (m : Metrics),
      (entries.map Prod.fst).Nodup →
      ∀ e ∈ (serversLoop w st entries m).1,
        ∃ pid, e.2 = some pid ∧ w.osAlive pid = true ∧
          aliveInv w st e.1 pid ((serversLoop w st entries m).2) := by
  intro entries
  induction entries with
  | nil =>
    intro m _ e he
    simp [serversLoop] at he
  | cons ent rest ih =>
    intro m hnd e he
    obtain ⟨b, p⟩ := ent
    rw [List.map_cons, List.nodup_cons] at hnd
    obtain ⟨hb, hndr⟩ := hnd
    rw [serversLoop_cons] at he
    show ∃ pid, e.2 = some pid ∧ w.osAlive pid = true ∧
      aliveInv w st e.1 pid
        ((serversLoop w st rest ((serverStep w st m b p).2)).2)
    by_cases hkeep : (serverStep w st m b p).1 = true
    · rw [if_pos hkeep] at he
      rcases List.mem_cons.mp he with heq | hmem
      · subst heq
        cases p with
        | none => exact absurd hkeep (by rw [serverStep_keep_none]; simp)
        | some pid =>
          rw [serverStep_keep_some] at hkeep
          refine ⟨pid, rfl, hkeep, ?_⟩
          exact aliveInv_serversLoop_frame w st b pid rest _ hb
            (serverStep_alive_inv w st b pid m hkeep)
      · exact ih _ hndr e hmem
    · rw [if_neg hkeep] at he
      exact ih _ hndr e he

theorem serversLoop_fixed (w : World) (st : List (String × StarterInfo)) :
    ∀ (kept : List (String × Option Nat)) (m : Metrics),
      (∀ e ∈ kept, ∃ pid, e.2 = some pid ∧ w.osAlive pid = true ∧
        aliveInv w st e.1 pid m) →
      serversLoop w st kept m = (kept, m) := by
  intro kept
  induction kept with
  | nil => intro m _; rfl
  | cons ent rest ih =>
    intro m hk
    obtain ⟨b, p⟩ := ent
    obtain ⟨pid, hpe, hal, hinv⟩ := hk (b, p) (List.mem_cons_self _ _)
    simp only at hpe
    subst hpe
    rw [serversLoop_cons, serverStep_alive_fixed w st b pid m hal hinv]
    rw [show ((true, m) : Bool × Metrics).2 = m from rfl]
    rw [ih m (fun e he => hk e (List.mem_cons_of_mem _ he))]
    simp

theorem serversLoop_idem (w : World) (st : List (String × StarterInfo))
    (entries : List (String × Option Nat)) (m : Metrics)
    (hnd : (entries.map Prod.fst).Nodup) :
    serversLoop w st (serversLoop w st entries m).1
        (serversLoop w st entries m).2 =
      ((serversLoop w st entries m).1, (serversLoop w st entries m).2) :=
  serversLoop_fixed w st _ _ (serversLoop_kept w st entries m hnd)

theorem get_local_servers_names (w : World) :
    (get_local_servers w).map Prod.fst = w.hostServers := by
  unfold get_local_servers
  rw [List.map_map,
    show (Prod.fst ∘ fun s => (s, get_server_process w s)) = id from rfl,
    List.map_id]

/-! Unfolding lemmas for one tick of the gather_data loop. -/

theorem tick_nonrefresh (w : World) (s : EngineState) (h : ¬ s.i % 60 = 0) :
    tick w s = .ok
      { servers := (serversLoop w s.starter_servers s.servers s.metrics).1,
        starter_servers := s.starter_servers,
        metrics := (serversLoop w s.starter_servers s.servers s.metrics).2,
        i := s.i + 1 } := by
  unfold tick
  rw [if_neg h]

theorem tick_refresh_ok (w : World) (s : EngineState) (lines : List String)
    (st : List (String × StarterInfo)) (h : s.i % 60 = 0)
    (hl : w.starterLines = some lines)
    (hst : get_starter_servers lines = .ok st) :
    tick w s = .ok
      { servers := (serversLoop w st (get_local_servers w)
          (publishStarter st s.metrics)).1,
        starter_servers := st,
        metrics := (serversLoop w st (get_local_servers w)
          (publishStarter st s.metrics)).2,
        i := s.i + 1 } := by
  simp [tick, h, hl, hst]

theorem tick_refresh_fail (w : World) (s : EngineState) (h : s.i % 60 = 0)
    (hl : w.starterLines = none) : tick w s = .error () := by
  unfold tick
  rw [if_pos h, hl]

theorem tick_refresh_parse_fail (w : World) (s : EngineState)
    (lines : List String) (e : Unit) (h : s.i % 60 = 0)
    (hl : w.starterLines = some lines)
    (hst : get_starter_servers lines = .error e) : tick w s = .error e := by
  simp [tick, h, hl, hst]

/-! Preservation of the starter gauges: no tick operation ever removes a
starter_controlled or starter_level series, because both cleanup loops
iterate only over the process metrics. -/

theorem hasSeries_true_set (m : Metrics) (k k' : SeriesKey) (v : Int)
    (h : hasSeries m k = true) : hasSeries (setSeries m k' v) k = true := by
  by_cases he : k = k'
  · subst he
    exact hasSeries_set_self m k v
  · rw [hasSeries_set_ne m k' k v he]
    exact h

theorem serverStep_starter_preserved (w : World)
    (st : List (String × StarterInfo)) (b : String) (p : Option Nat)
    (m : Metrics) (k : SeriesKey) (hk : k.1 ∉ processMetricNames)
    (h : hasSeries m k = true) :
    hasSeries ((serverStep w st m b p).2) k = true := by
  have hrem : ∀ (m2 : Metrics) (n : MetricName), n ∈ processMetricNames →
      hasSeries (tryRemove m2 (n, b)) k = hasSeries m2 k :=
    fun m2 n hn => hasSeries_rem_ne m2 (n, b) k
      (fun hc => hk (by rw [hc]; exact hn))
  have hset : ∀ (m2 : Metrics) (v : Int),
      hasSeries (setSeries m2 (MetricName.running, b) v) k = hasSeries m2 k :=
    fun m2 v => hasSeries_set_ne m2 (MetricName.running, b) k v
      (fun hc => hk (by rw [hc]; exact (by decide : MetricName.running ∈ processMetricNames)))
  cases p with
  | none =>
    show hasSeries (processMetricNames.foldl (cleanupStep st b) m) k = true
    rw [foldl_cleanup_frame (fun m2 => hasSeries m2 k) st b
      processMetricNames m hset hrem]
    exact h
  | some pid =>
    cases ha : w.osAlive pid with
    | false =>
      simp only [serverStep, ha, Bool.false_eq_true, if_false]
      rw [foldl_remove_frame (fun m2 => hasSeries m2 k) b
        processMetricNames m hrem]
      exact h
    | true =>
      cases hmd : w.memData pid <;>
        cases hp : w.pingOk b <;>
        cases hctl : isControlled st b <;>
        simp only [serverStep, ha, hmd, hp, hctl, if_true, if_false,
          Bool.false_eq_true, Bool.true_eq_false, eq_self_iff_true] <;>
        (repeat apply hasSeries_true_set) <;>
        exact h

theorem serversLoop_starter_preserved (w : World)
    (st : List (String × StarterInfo)) :
    ∀ (entries : List (String × Option Nat)) (m : Metrics) (k : SeriesKey),
      k.1 ∉ processMetricNames → hasSeries m k = true →
      hasSeries ((serversLoop w st entries m).2) k = true := by
  intro entries
  induction entries with
  | nil => intro m k _ h; exact h
  | cons ent rest ih =>
    intro m k hk h
    obtain ⟨b, p⟩ := ent
    rw [serversLoop_cons]
    show hasSeries ((serversLoop w st rest ((serverStep w st m b p).2)).2) k = true
    exact ih _ k hk (serverStep_starter_preserved w st b p m k hk h)

theorem publishStarter_preserved (snap : List (String × StarterInfo)) :
    ∀ (m : Metrics) (k : SeriesKey), hasSeries m k = true →
      hasSeries (publishStarter snap m) k = true := by
  induction snap with
  | nil => intro m k h; exact h
  | cons e rest ih =>
    intro m k h
    unfold publishStarter at ih ⊢
    rw [List.foldl_cons]
    exact ih _ k (hasSeries_true_set _ _ _ _ (hasSeries_true_set _ _ _ _ h))

/-- C10: once a starter_controlled or starter_level series exists for a
label tuple, no tick ever removes it: the two cleanup loops of
gather_data iterate only over the process_metrics dict, and the refresh
only sets starter gauges, so both starter series survive every
successful tick, even after the server's tracked entry is dropped. -/
theorem c10_starter_series_persist (w : World) (s s1 : EngineState)
    (k : SeriesKey)
    (hk : k.1 = MetricName.starter_controlled ∨ k.1 = MetricName.starter_level)
    (ht : tick w s = .ok s1)
    (h : hasSeries s.metrics k = true) :
    hasSeries s1.metrics k = true := by
  have hk2 : k.1 ∉ processMetricNames := by
    rcases hk with h1 | h1 <;> rw [h1] <;> decide
  by_cases h0 : s.i % 60 = 0
  · cases hl : w.starterLines with
    | none =>
      rw [tick_refresh_fail w s h0 hl] at ht
      exact absurd ht (by simp)
    | some lines =>
      cases hst : get_starter_servers lines with
      | error e =>
        rw [tick_refresh_parse_fail w s lines e h0 hl hst] at ht
        exact absurd ht (by simp)
      | ok st =>
        rw [tick_refresh_ok w s lines st h0 hl hst] at ht
        injection ht with ht2
        rw [← ht2]
        exact serversLoop_starter_preserved w st _ _ k hk2
          (publishStarter_preserved st s.metrics k h)
  · rw [tick_nonrefresh w s h0] at ht
    injection ht with ht2
    rw [← ht2]
    exact serversLoop_starter_preserved w s.starter_servers _ _ k hk2 h

/-- C10 witness: a concrete state with an existing starter_controlled
series for server A keeps it across a tick that drops A's entry. -/
theorem c10_witness :
    hasSeries c5After.metrics (MetricName.starter_controlled, "A") = true :=
  c10_starter_series_persist trivWorld c5State c5After
    (MetricName.starter_controlled, "A") (Or.inl rfl) rfl rfl

/-- C9: the claim quantifies over every engine state, but at a refresh
boundary the refresh may first reconcile a change that predates the
two-tick window: here server A started before tick 59, the World is
identical across ticks 59 and 60, yet tick 60 (the refresh) creates new
series that tick 59 did not have. -/
theorem c9_counterexample :
    tick c9World c9State = .ok c9Mid ∧
    hasSeries c9Mid.metrics (MetricName.running, "A") = false ∧
    (tick c9World c9Mid).map
      (fun s => hasSeries s.metrics (MetricName.running, "A")) = .ok true :=
  ⟨rfl, rfl, rfl⟩

/-- C9 (amended): two consecutive ticks under an unchanged World produce
identical gauge values and create or remove no series, provided the
second tick is not the periodic supervisor-refresh tick (counter not 59
mod 60; at a refresh boundary the refresh may reconcile changes that
predate the window).  Server names are pairwise distinct, as they form
Python dict keys. -/
theorem c9_amended_idempotent (w : World) (s s1 : EngineState)
    (hnd : (s.servers.map Prod.fst).Nodup)
    (hhost : w.hostServers.Nodup)
    (h59 : s.i % 60 ≠ 59)
    (ht : tick w s = .ok s1) :
    ∃ s2, tick w s1 = .ok s2 ∧ s2.metrics = s1.metrics ∧
      s2.servers = s1.servers ∧ s2.starter_servers = s1.starter_servers := by
  by_cases h0 : s.i % 60 = 0
  · cases hl : w.starterLines with
    | none =>
      rw [tick_refresh_fail w s h0 hl] at ht
      exact absurd ht (by simp)
    | some lines =>
      cases hst : get_starter_servers lines with
      | error e =>
        rw [tick_refresh_parse_fail w s lines e h0 hl hst] at ht
        exact absurd ht (by simp)
      | ok st =>
        rw [tick_refresh_ok w s lines st h0 hl hst] at ht
        injection ht with ht2
        have hi : ¬ (s.i + 1) % 60 = 0 := by omega
        rw [← ht2]
        rw [tick_nonrefresh w _ (by exact hi)]
        have hidem := serversLoop_idem w st (get_local_servers w)
          (publishStarter st s.metrics)
          (by rw [get_local_servers_names]; exact hhost)
        refine ⟨_, rfl, ?_, ?_, rfl⟩
        · show (serversLoop w st (serversLoop w st (get_local_servers w)
            (publishStarter st s.metrics)).1
            (serversLoop w st (get_local_servers w)
              (publishStarter st s.metrics)).2).2 = _
          rw [hidem]
        · show (serversLoop w st (serversLoop w st (get_local_servers w)
            (publishStarter st s.metrics)).1
            (serversLoop w st (get_local_servers w)
              (publishStarter st s.metrics)).2).1 = _
          rw [hidem]
  · rw [tick_nonrefresh w s h0] at ht
    injection ht with ht2
    have hi : ¬ (s.i + 1) % 60 = 0 := by omega
    rw [← ht2]
    rw [tick_nonrefresh w _ (by exact hi)]
    have hidem := serversLoop_idem w s.starter_servers s.servers s.metrics hnd
    refine ⟨_, rfl, ?_, ?_, rfl⟩
    · show (serversLoop w s.starter_servers
        (serversLoop w s.starter_servers s.servers s.metrics).1
        (serversLoop w s.starter_servers s.servers s.metrics).2).2 = _
      rw [hidem]
    · show (serversLoop w s.starter_servers
        (serversLoop w s.starter_servers s.servers s.metrics).1
        (serversLoop w s.starter_servers s.servers s.metrics).2).1 = _
      rw [hidem]

/-- C9 witness: the amended idempotence applied to a concrete refresh
tick followed by a concrete plain tick under the trivial World. -/
theorem c9_witness :
    ∃ s2, tick trivWorld emptyState1 = .ok s2 ∧
      s2.metrics = emptyState1.metrics ∧
      s2.servers = emptyState1.servers ∧
      s2.starter_servers = emptyState1.starter_servers :=
  c9_amended_idempotent trivWorld emptyState0 emptyState1
    (by simp [emptyState0]) (by constructor) (by decide) rfl

/-! Decomposition of the per-server loop around a distinguished entry,
and the effect of the two cleanup folds. -/

theorem serversLoop_append (w : World) (st : List (String × StarterInfo)) :
    ∀ (l1 l2 : List (String × Option Nat)) (m : Metrics),
      serversLoop w st (l1 ++ l2) m =
        ((serversLoop w st l1 m).1 ++
          (serversLoop w st l2 (serversLoop w st l1 m).2).1,
         (serversLoop w st l2 (serversLoop w st l1 m).2).2) := by
  intro l1
  induction l1 with
  | nil => intro l2 m; rfl
  | cons ent rest ih =>
    intro l2 m
    obtain ⟨b, p⟩ := ent
    rw [List.cons_append, serversLoop_cons, serversLoop_cons, ih]
    by_cases hk : (serverStep w st m b p).1 = true
    · rw [if_pos hk, if_pos hk]
      simp [List.cons_append]
    · rw [if_neg hk, if_neg hk]

theorem serversLoop_kept_mem (w : World) (st : List (String × StarterInfo)) :
    ∀ (entries : List (String × Option Nat)) (m : Metrics)
      (e : String × Option Nat),
      e ∈ (serversLoop w st entries m).1 → e ∈ entries := by
  intro entries
  induction entries with
  | nil => intro m e he; simp [serversLoop] at he
  | cons ent rest ih =>
    intro m e he
    obtain ⟨b, p⟩ := ent
    rw [serversLoop_cons] at he
    by_cases hk : (serverStep w st m b p).1 = true
    · rw [if_pos hk] at he
      rcases List.mem_cons.mp he with heq | hr
      · rw [heq]; exact List.mem_cons_self _ _
      · exact List.mem_cons_of_mem _ (ih _ _ hr)
    · rw [if_neg hk] at he
      exact List.mem_cons_of_mem _ (ih _ _ he)

theorem cleanup_fold_spec (st : List (String × StarterInfo)) (srv : String)
    (m F : Metrics)
    (hF : F = processMetricNames.foldl (cleanupStep st srv) m) :
    (isControlled st srv = true →
      getSeries F (MetricName.running, srv) = some 0) ∧
    (isControlled st srv = false →
      hasSeries F (MetricName.running, srv) = false) ∧
    hasSeries F (MetricName.cpu_time_user, srv) = false ∧
    hasSeries F (MetricName.cpu_time_system, srv) = false ∧
    hasSeries F (MetricName.cpu_percent, srv) = false ∧
    hasSeries F (MetricName.mem_rss, srv) = false ∧
    hasSeries F (MetricName.mem_data, srv) = false ∧
    hasSeries F (MetricName.threads_n, srv) = false ∧
    hasSeries F (MetricName.dserver_ping, srv) = false ∧
    getSeries F (MetricName.starter_controlled, srv) =
      getSeries m (MetricName.starter_controlled, srv) ∧
    getSeries F (MetricName.starter_level, srv) =
      getSeries m (MetricName.starter_level, srv) := by
  subst hF
  by_cases hctl : isControlled st srv = true
  · simp [processMetricNames, cleanupStep, hctl, getSeries_set_self,
      getSeries_set_ne, getSeries_rem_self, getSeries_rem_ne,
      hasSeries_set_self, hasSeries_set_ne, hasSeries_rem_self,
      hasSeries_rem_ne]
  · have hctl2 : isControlled st srv = false := by simpa using hctl
    simp [processMetricNames, cleanupStep, hctl2, getSeries_set_self,
      getSeries_set_ne, getSeries_rem_self, getSeries_rem_ne,
      hasSeries_set_self, hasSeries_set_ne, hasSeries_rem_self,
      hasSeries_rem_ne]

theorem remove_fold_spec (srv : String) (m F : Metrics)
    (hF : F = processMetricNames.foldl (removeStep srv) m) :
    hasSeries F (MetricName.running, srv) = false ∧
    hasSeries F (MetricName.cpu_time_user, srv) = false ∧
    hasSeries F (MetricName.cpu_time_system, srv) = false ∧
    hasSeries F (MetricName.cpu_percent, srv) = false ∧
    hasSeries F (MetricName.mem_rss, srv) = false ∧
    hasSeries F (MetricName.mem_data, srv) = false ∧
    hasSeries F (MetricName.threads_n, srv) = false ∧
    hasSeries F (MetricName.dserver_ping, srv) = false ∧
    getSeries F (MetricName.starter_controlled, srv) =
      getSeries m (MetricName.starter_controlled, srv) ∧
    getSeries F (MetricName.starter_level, srv) =
      getSeries m (MetricName.starter_level, srv) := by
  subst hF
  simp [processMetricNames, removeStep, getSeries_rem_self, getSeries_rem_ne,
    hasSeries_rem_self, hasSeries_rem_ne]

/-- A non-refresh tick seen from one tracked server whose stored PID is
still alive: the tick succeeds and afterwards that server's gauges all
hold the values freshly read from the World this tick. -/
theorem tick_alive_series (w : World) (s : EngineState)
    (pre post : List (String × Option Nat)) (srv : String) (pid : Nat)
    (h60 : ¬ s.i % 60 = 0)
    (hsv : s.servers = pre ++ (srv, some pid) :: post)
    (hpost : srv ∉ post.map Prod.fst)
    (ha : w.osAlive pid = true) :
    ∃ s2, tick w s = .ok s2 ∧
      aliveInv w s.starter_servers srv pid s2.metrics ∧
      s2.starter_servers = s.starter_servers := by
  rw [tick_nonrefresh w s h60]
  refine ⟨_, rfl, ?_, rfl⟩
  rw [hsv, serversLoop_append, serversLoop_cons]
  show aliveInv w s.starter_servers srv pid
    ((serversLoop w s.starter_servers post
      ((serverStep w s.starter_servers
        ((serversLoop w s.starter_servers pre s.metrics).2) srv
        (some pid)).2)).2)
  exact aliveInv_serversLoop_frame w s.starter_servers srv pid post _ hpost
    (serverStep_alive_inv w s.starter_servers srv pid _ ha)

/-- A non-refresh tick seen from one tracked server whose process
resolved to None: the entry is dropped; running survives at 0 only while
the server is still in the snapshot; the other per-process series are
removed; the starter gauges are untouched. -/
theorem tick_gone (w : World) (s : EngineState)
    (pre post : List (String × Option Nat)) (srv : String)
    (h60 : ¬ s.i % 60 = 0)
    (hsv : s.servers = pre ++ (srv, none) :: post)
    (hpre : srv ∉ pre.map Prod.fst)
    (hpost : srv ∉ post.map Prod.fst) :
    ∃ s2, tick w s = .ok s2 ∧
      (isControlled s.starter_servers srv = true →
        getSeries s2.metrics (MetricName.running, srv) = some 0) ∧
      (isControlled s.starter_servers srv = false →
        hasSeries s2.metrics (MetricName.running, srv) = false) ∧
      hasSeries s2.metrics (MetricName.cpu_time_user, srv) = false ∧
      hasSeries s2.metrics (MetricName.cpu_time_system, srv) = false ∧
      hasSeries s2.metrics (MetricName.cpu_percent, srv) = false ∧
      hasSeries s2.metrics (MetricName.mem_rss, srv) = false ∧
      hasSeries s2.metrics (MetricName.mem_data, srv) = false ∧
      hasSeries s2.metrics (MetricName.threads_n, srv) = false ∧
      hasSeries s2.metrics (MetricName.dserver_ping, srv) = false ∧
      getSeries s2.metrics (MetricName.starter_controlled, srv) =
        getSeries s.metrics (MetricName.starter_controlled, srv) ∧
      getSeries s2.metrics (MetricName.starter_level, srv) =
        getSeries s.metrics (MetricName.starter_level, srv) ∧
      srv ∉ s2.servers.map Prod.fst := by
  rw [tick_nonrefresh w s h60]
  have hm2 : (serversLoop w s.starter_servers s.servers s.metrics).2 =
      (serversLoop w s.starter_servers post
        (processMetricNames.foldl (cleanupStep s.starter_servers srv)
          ((serversLoop w s.starter_servers pre s.metrics).2))).2 := by
    rw [hsv, serversLoop_append, serversLoop_cons]
    rfl
  have hk1 : (serversLoop w s.starter_servers s.servers s.metrics).1 =
      (serversLoop w s.starter_servers pre s.metrics).1 ++
        (serversLoop w s.starter_servers post
          (processMetricNames.foldl (cleanupStep s.starter_servers srv)
            ((serversLoop w s.starter_servers pre s.metrics).2))).1 := by
    rw [hsv, serversLoop_append, serversLoop_cons]
    rfl
  obtain ⟨g1, g2, g3, g4, g5, g6, g7, g8, g9, g10, g11⟩ :=
    cleanup_fold_spec s.starter_servers srv
      ((serversLoop w s.starter_servers pre s.metrics).2) _ rfl
  have hget : ∀ (name : MetricName),
      getSeries ((serversLoop w s.starter_servers s.servers s.metrics).2)
          (name, srv) =
        getSeries (processMetricNames.foldl (cleanupStep s.starter_servers srv)
          ((serversLoop w s.starter_servers pre s.metrics).2)) (name, srv) := by
    intro name
    rw [hm2, getSeries_serversLoop_frame _ _ _ _ _ _ hpost]
  have hhas : ∀ (name : MetricName),
      hasSeries ((serversLoop w s.starter_servers s.servers s.metrics).2)
          (name, srv) =
        hasSeries (processMetricNames.foldl (cleanupStep s.starter_servers srv)
          ((serversLoop w s.starter_servers pre s.metrics).2)) (name, srv) := by
    intro name
    rw [hm2, hasSeries_serversLoop_frame _ _ _ _ _ _ hpost]
  have hpre_get : ∀ (name : MetricName),
      getSeries ((serversLoop w s.starter_servers pre s.metrics).2)
          (name, srv) = getSeries s.metrics (name, srv) :=
    fun name => getSeries_serversLoop_frame _ _ _ _ _ _ hpre
  refine ⟨_, rfl, ?_, ?_, ?_, ?_, ?_, ?_, ?_, ?_, ?_, ?_, ?_, ?_⟩
  · intro hctl
    rw [hget, g1 hctl]
  · intro hctl
    rw [hhas, g2 hctl]
  · rw [hhas, g3]
  · rw [hhas, g4]
  · rw [hhas, g5]
  · rw [hhas, g6]
  · rw [hhas, g7]
  · rw [hhas, g8]
  · rw [hhas, g9]
  · rw [hget, g10, hpre_get]
  · rw [hget, g11, hpre_get]
  · show srv ∉ ((serversLoop w s.starter_servers s.servers s.metrics).1).map
      Prod.fst
    rw [hk1]
    intro hmem
    rw [List.map_append, List.mem_append] at hmem
    rcases hmem with hmem | hmem <;>
      obtain ⟨e, he, hfst⟩ := List.mem_map.mp hmem
    · exact hpre (List.mem_map.mpr
        ⟨e, serversLoop_kept_mem w s.starter_servers pre s.metrics e he, hfst⟩)
    · exact hpost (List.mem_map.mpr
        ⟨e, serversLoop_kept_mem w s.starter_servers post _ e he, hfst⟩)

/-- A non-refresh tick seen from one tracked server whose stored PID is
dead (psutil raises NoSuchProcess mid-read): the entry is dropped and
every per-process series, the running series included, is removed,
regardless of the starter snapshot; the starter gauges are untouched. -/
theorem tick_nosuch (w : World) (s : EngineState)
    (pre post : List (String × Option Nat)) (srv : String) (pid : Nat)
    (h60 : ¬ s.i % 60 = 0)
    (hsv : s.servers = pre ++ (srv, some pid) :: post)
    (hpre : srv ∉ pre.map Prod.fst)
    (hpost : srv ∉ post.map Prod.fst)
    (ha : w.osAlive pid = false) :
    ∃ s2, tick w s = .ok s2 ∧
      hasSeries s2.metrics (MetricName.running, srv) = false ∧
      hasSeries s2.metrics (MetricName.cpu_time_user, srv) = false ∧
      hasSeries s2.metrics (MetricName.cpu_time_system, srv) = false ∧
      hasSeries s2.metrics (MetricName.cpu_percent, srv) = false ∧
      hasSeries s2.metrics (MetricName.mem_rss, srv) = false ∧
      hasSeries s2.metrics (MetricName.mem_data, srv) = false ∧
      hasSeries s2.metrics (MetricName.threads_n, srv) = false ∧
      hasSeries s2.metrics (MetricName.dserver_ping, srv) = false ∧
      getSeries s2.metrics (MetricName.starter_controlled, srv) =
        getSeries s.metrics (MetricName.starter_controlled, srv) ∧
      getSeries s2.metrics (MetricName.starter_level, srv) =
        getSeries s.metrics (MetricName.starter_level, srv) ∧
      srv ∉ s2.servers.map Prod.fst := by
  rw [tick_nonrefresh w s h60]
  have hstep : serverStep w s.starter_servers
      ((serversLoop w s.starter_servers pre s.metrics).2) srv (some pid) =
      (false, processMetricNames.foldl (removeStep srv)
        ((serversLoop w s.starter_servers pre s.metrics).2)) := by
    simp [serverStep, ha]
  have hm2 : (serversLoop w s.starter_servers s.servers s.metrics).2 =
      (serversLoop w s.starter_servers post
        (processMetricNames.foldl (removeStep srv)
          ((serversLoop w s.starter_servers pre s.metrics).2))).2 := by
    rw [hsv, serversLoop_append, serversLoop_cons, hstep]
  have hk1 : (serversLoop w s.starter_servers s.servers s.metrics).1 =
      (serversLoop w s.starter_servers pre s.metrics).1 ++
        (serversLoop w s.starter_servers post
          (processMetricNames.foldl (removeStep srv)
            ((serversLoop w s.starter_servers pre s.metrics).2))).1 := by
    rw [hsv, serversLoop_append, serversLoop_cons, hstep]
    simp
  obtain ⟨g1, g2, g3, g4, g5, g6, g7, g8, g9, g10⟩ :=
    remove_fold_spec srv
      ((serversLoop w s.starter_servers pre s.metrics).2) _ rfl
  have hget : ∀ (name : MetricName),
      getSeries ((serversLoop w s.starter_servers s.servers s.metrics).2)
          (name, srv) =
        getSeries (processMetricNames.foldl (removeStep srv)
          ((serversLoop w s.starter_servers pre s.metrics).2)) (name, srv) := by
    intro name
    rw [hm2, getSeries_serversLoop_frame _ _ _ _ _ _ hpost]
  have hhas : ∀ (name : MetricName),
      hasSeries ((serversLoop w s.starter_servers s.servers s.metrics).2)
          (name, srv) =
        hasSeries (processMetricNames.foldl (removeStep srv)
          ((serversLoop w s.starter_servers pre s.metrics).2)) (name, srv) := by
    intro name
    rw [hm2, hasSeries_serversLoop_frame _ _ _ _ _ _ hpost]
  have hpre_get : ∀ (name : MetricName),
      getSeries ((serversLoop w s.starter_servers pre s.metrics).2)
          (name, srv) = getSeries s.metrics (name, srv) :=
    fun name => getSeries_serversLoop_frame _ _ _ _ _ _ hpre
  refine ⟨_, rfl, ?_, ?_, ?_, ?_, ?_, ?_, ?_, ?_, ?_, ?_, ?_⟩
  · rw [hhas, g1]
  · rw [hhas, g2]
  · rw [hhas, g3]
  · rw [hhas, g4]
  · rw [hhas, g5]
  · rw [hhas, g6]
  · rw [hhas, g7]
  · rw [hhas, g8]
  · rw [hget, g9, hpre_get]
  · rw [hget, g10, hpre_get]
  · show srv ∉ ((serversLoop w s.starter_servers s.servers s.metrics).1).map
      Prod.fst
    rw [hk1]
    intro hmem
    rw [List.map_append, List.mem_append] at hmem
    rcases hmem with hmem | hmem <;>
      obtain ⟨e, he, hfst⟩ := List.mem_map.mp hmem
    · exact hpre (List.mem_map.mpr
        ⟨e, serversLoop_kept_mem w s.starter_servers pre s.metrics e he, hfst⟩)
    · exact hpost (List.mem_map.mpr
        ⟨e, serversLoop_kept_mem w s.starter_servers post _ e he, hfst⟩)

/-! The claims. -/

/-- C1: for an exported registry entry whose control-channel ping fails,
get_server_process returns none even when the OS-level PID is alive; and
a process handle is returned exactly when the entry exists, is exported,
the ping succeeds and the OS reports the PID alive. -/
theorem c1_process_resolution (w : World) (name : String) :
    (∀ info, w.deviceInfo name = some info → info.exported = true →
      w.pingOk name = false → w.osAlive info.pid = true →
      get_server_process w name = none) ∧
    (∀ p, get_server_process w name = some p ↔
      ∃ info, w.deviceInfo name = some info ∧ info.exported = true ∧
        w.pingOk name = true ∧ w.osAlive info.pid = true ∧ p = info.pid) := by
  constructor
  · intro info hinfo hexp hping _
    simp [get_server_process, hinfo, hexp, hping]
  · intro p
    constructor
    · intro hp
      cases hinfo : w.deviceInfo name with
      | none => simp [get_server_process, hinfo] at hp
      | some info =>
        by_cases hexp : info.exported = true
        · by_cases hping : w.pingOk name = true
          · by_cases hal : w.osAlive info.pid = true
            · refine ⟨info, rfl, hexp, hping, hal, ?_⟩
              simp [get_server_process, hinfo, hexp, hping, hal] at hp
              exact hp.symm
            · simp [get_server_process, hinfo, hexp, hping, hal] at hp
          · simp [get_server_process, hinfo, hexp, hping] at hp
        · simp [get_server_process, hinfo, hexp] at hp
    · rintro ⟨info, hinfo, hexp, hping, hal, rfl⟩
      simp [get_server_process, hinfo, hexp, hping, hal]

/-- C1 witness: in c1World server A is exported with a live PID but
fails the ping, so it resolves to none; server B resolves to its PID. -/
theorem c1_witness :
    get_server_process c1World "A" = none ∧
    get_server_process c1World "B" = some 7 := by
  constructor
  · exact (c1_process_resolution c1World "A").1
      { exported := true, pid := 11 } rfl rfl rfl rfl
  · exact ((c1_process_resolution c1World "B").2 7).mpr
      ⟨{ exported := true, pid := 7 }, rfl, rfl, rfl, rfl, rfl⟩

/-- C2: a well-formed Servers record (exactly four tab-separated fields,
numeric level) is kept by get_starter_servers iff its level field is not
"0", independently of the controlled field; a kept record has ok true
iff state is "ON" and level equal to the integer value of the level
field. -/
theorem c2_snapshot_predicate (line server state controlled level : String)
    (n : Int)
    (hsplit : pySplit line = [server, state, controlled, level])
    (hn : pyInt level = .ok n) :
    get_starter_servers [line] =
      .ok (if level = "0" then []
        else [(server, { ok := state == "ON", level := n })]) := by
  simp only [get_starter_servers, starterFold, hsplit]
  by_cases h0 : level = "0"
  · simp [h0]
  · simp [h0, hn, setEntry, starterFold]

/-- C2 witness: one concrete record with level 3, controlled flag 0. -/
theorem c2_witness :
    get_starter_servers ["Foo/1\tON\t0\t3"] =
      .ok [("Foo/1", { ok := true, level := 3 })] := by
  have h := c2_snapshot_predicate "Foo/1\tON\t0\t3" "Foo/1" "ON" "0" "3" 3
    rfl rfl
  exact h.trans (by rfl)

/-- C3 counterexample: the fetch of a snapshot containing the
well-formed record A and a malformed record B fails as a whole; the
record A, which parses fine on its own, is not returned.  The claim says
only the malformed record is rejected. -/
theorem c3_counterexample :
    get_starter_servers ["A\tON\t1\t3", "B\tON"] = .error () ∧
    get_starter_servers ["A\tON\t1\t3"] =
      .ok [("A", { ok := true, level := 3 })] :=
  ⟨rfl, rfl⟩

theorem starterFold_abort :
    ∀ (lines : List String) (acc : List (String × StarterInfo)),
      (∃ line ∈ lines, (pySplit line).length ≠ 4) →
      starterFold lines acc = .error () := by
  intro lines
  induction lines with
  | nil =>
    intro acc h
    obtain ⟨l, hl, _⟩ := h
    simp at hl
  | cons l rest ih =>
    intro acc h
    obtain ⟨l2, hl2, hbad⟩ := h
    by_cases h4 : ∃ a b c d, pySplit l = [a, b, c, d]
    · obtain ⟨a, b, c, d, hab⟩ := h4
      have hl2r : l2 ∈ rest := by
        rcases List.mem_cons.mp hl2 with heq | hr
        · rw [heq, hab] at hbad
          simp at hbad
        · exact hr
      simp only [starterFold, hab]
      by_cases hd0 : d ≠ "0"
      · rw [if_pos hd0]
        cases hpi : pyInt d with
        | ok n => exact ih _ ⟨l2, hl2r, hbad⟩
        | error e => rfl
      · rw [if_neg hd0]
        exact ih _ ⟨l2, hl2r, hbad⟩
    · rcases hc : pySplit l with _ | ⟨a, _ | ⟨b, _ | ⟨c, _ | ⟨d, _ | ⟨x, xs⟩⟩⟩⟩⟩
      · simp only [starterFold, hc]
      · simp only [starterFold, hc]
      · simp only [starterFold, hc]
      · simp only [starterFold, hc]
      · exact absurd ⟨a, b, c, d, hc⟩ h4
      · simp only [starterFold, hc]

/-- C3 (amended): a record with the wrong tab-separated field count
raises an uncaught ValueError in get_starter_servers, so the whole fetch
fails and none of the well-formed records of the sequence is returned;
there is no per-record skipping. -/
theorem c3_amended_abort (lines : List String) (line : String)
    (hmem : line ∈ lines) (hbad : (pySplit line).length ≠ 4) :
    get_starter_servers lines = .error () := by
  show starterFold lines [] = .error ()
  exact starterFold_abort lines [] ⟨line, hmem, hbad⟩

/-- C3 witness: a single malformed record aborts its fetch. -/
theorem c3_witness : get_starter_servers ["Bad\tON"] = .error () :=
  c3_amended_abort ["Bad\tON"] "Bad\tON" (by simp) (by decide)

/-- C4 counterexample: server A is tracked with a stale PID, is in the
starter snapshot, and has a running series; psutil reports the PID dead
(NoSuchProcess).  After the tick the running series is gone, although
the claim says the NoSuchProcess path keeps running at 0 for a
supervisor-controlled server just like the resolved-as-none path. -/
theorem c4_counterexample :
    isControlled c4State.starter_servers "A" = true ∧
    hasSeries c4State.metrics (MetricName.running, "A") = true ∧
    (tick trivWorld c4State).map
      (fun s => hasSeries s.metrics (MetricName.running, "A")) = .ok false :=
  ⟨rfl, rfl, rfl⟩

/-- C4 (amended): the two gone-process paths differ.  When the stored
process is None, the per-process series are removed except running,
which is kept at 0 while the server is still in the snapshot.  When the
process dies mid-read (NoSuchProcess), every per-process series,
running included, is removed regardless of the snapshot. -/
theorem c4_amended_cleanup :
    (∀ (w : World) (s : EngineState) (pre post : List (String × Option Nat))
      (srv : String),
      ¬ s.i % 60 = 0 → s.servers = pre ++ (srv, none) :: post →
      srv ∉ pre.map Prod.fst → srv ∉ post.map Prod.fst →
      isControlled s.starter_servers srv = true →
      ∃ s2, tick w s = .ok s2 ∧
        getSeries s2.metrics (MetricName.running, srv) = some 0 ∧
        hasSeries s2.metrics (MetricName.cpu_time_user, srv) = false ∧
        hasSeries s2.metrics (MetricName.cpu_time_system, srv) = false ∧
        hasSeries s2.metrics (MetricName.cpu_percent, srv) = false ∧
        hasSeries s2.metrics (MetricName.mem_rss, srv) = false ∧
        hasSeries s2.metrics (MetricName.mem_data, srv) = false ∧
        hasSeries s2.metrics (MetricName.threads_n, srv) = false ∧
        hasSeries s2.metrics (MetricName.dserver_ping, srv) = false) ∧
    (∀ (w : World) (s : EngineState) (pre post : List (String × Option Nat))
      (srv : String) (pid : Nat),
      ¬ s.i % 60 = 0 → s.servers = pre ++ (srv, some pid) :: post →
      srv ∉ pre.map Prod.fst → srv ∉ post.map Prod.fst →
      w.osAlive pid = false →
      ∃ s2, tick w s = .ok s2 ∧
        hasSeries s2.metrics (MetricName.running, srv) = false ∧
        hasSeries s2.metrics (MetricName.cpu_time_user, srv) = false ∧
        hasSeries s2.metrics (MetricName.cpu_time_system, srv) = false ∧
        hasSeries s2.metrics (MetricName.cpu_percent, srv) = false ∧
        hasSeries s2.metrics (MetricName.mem_rss, srv) = false ∧
        hasSeries s2.metrics (MetricName.mem_data, srv) = false ∧
        hasSeries s2.metrics (MetricName.threads_n, srv) = false ∧
        hasSeries s2.metrics (MetricName.dserver_ping, srv) = false) := by
  constructor
  · intro w s pre post srv h60 hsv hpre hpost hctl
    obtain ⟨s2, ht, q1, _, q3, q4, q5, q6, q7, q8, q9, _, _, _⟩ :=
      tick_gone w s pre post srv h60 hsv hpre hpost
    exact ⟨s2, ht, q1 hctl, q3, q4, q5, q6, q7, q8, q9⟩
  · intro w s pre post srv pid h60 hsv hpre hpost ha
    obtain ⟨s2, ht, q1, q2, q3, q4, q5, q6, q7, q8, _, _, _⟩ :=
      tick_nosuch w s pre post srv pid h60 hsv hpre hpost ha
    exact ⟨s2, ht, q1, q2, q3, q4, q5, q6, q7, q8⟩

/-- C4 witness: both amended paths at concrete states: the None path
keeps running at 0 for the controlled server A; the NoSuchProcess path
removes A's running series. -/
theorem c4_witness :
    (∃ s2, tick trivWorld c4bState = .ok s2 ∧
      getSeries s2.metrics (MetricName.running, "A") = some 0) ∧
    (∃ s2, tick trivWorld c4State = .ok s2 ∧
      hasSeries s2.metrics (MetricName.running, "A") = false) := by
  constructor
  · obtain ⟨s2, ht, q1, _⟩ := c4_amended_cleanup.1 trivWorld c4bState [] []
      "A" (by decide) rfl (by simp) (by simp) rfl
    exact ⟨s2, ht, q1⟩
  · obtain ⟨s2, ht, q1, _⟩ := c4_amended_cleanup.2 trivWorld c4State [] []
      "A" 5 (by decide) rfl (by simp) (by simp) rfl
    exact ⟨s2, ht, q1⟩

/-- C5 counterexample: server A has no process and is absent from the
snapshot; the tick drops its entry, but the starter_controlled series
for A's label tuple survives the tick, so not every metric series under
the label tuple is deleted. -/
theorem c5_counterexample :
    (tick trivWorld c5State).map
      (fun s => (s.servers,
        hasSeries s.metrics (MetricName.starter_controlled, "A"))) =
      .ok ([], true) := rfl

/-- C5 (amended): for a server with no resolvable process that is absent
from the snapshot, the tick removes the tracked entry and deletes every
per-process series (running, cpu, memory, threads, ping) under its label
tuple; the starter_controlled and starter_level series, if previously
created, are not removed; and the deletion is best-effort: the tick
succeeds whether or not the series ever existed. -/
theorem c5_amended_retirement (w : World) (s : EngineState)
    (pre post : List (String × Option Nat)) (srv : String)
    (h60 : ¬ s.i % 60 = 0)
    (hsv : s.servers = pre ++ (srv, none) :: post)
    (hpre : srv ∉ pre.map Prod.fst)
    (hpost : srv ∉ post.map Prod.fst)
    (hctl : isControlled s.starter_servers srv = false) :
    ∃ s2, tick w s = .ok s2 ∧
      srv ∉ s2.servers.map Prod.fst ∧
      hasSeries s2.metrics (MetricName.running, srv) = false ∧
      hasSeries s2.metrics (MetricName.cpu_time_user, srv) = false ∧
      hasSeries s2.metrics (MetricName.cpu_time_system, srv) = false ∧
      hasSeries s2.metrics (MetricName.cpu_percent, srv) = false ∧
      hasSeries s2.metrics (MetricName.mem_rss, srv) = false ∧
      hasSeries s2.metrics (MetricName.mem_data, srv) = false ∧
      hasSeries s2.metrics (MetricName.threads_n, srv) = false ∧
      hasSeries s2.metrics (MetricName.dserver_ping, srv) = false ∧
      getSeries s2.metrics (MetricName.starter_controlled, srv) =
        getSeries s.metrics (MetricName.starter_controlled, srv) ∧
      getSeries s2.metrics (MetricName.starter_level, srv) =
        getSeries s.metrics (MetricName.starter_level, srv) := by
  obtain ⟨s2, ht, _, q2, q3, q4, q5, q6, q7, q8, q9, q10, q11, q12⟩ :=
    tick_gone w s pre post srv h60 hsv hpre hpost
  exact ⟨s2, ht, q12, q2 hctl, q3, q4, q5, q6, q7, q8, q9, q10, q11⟩

/-- C5 witness: the amended retirement at the concrete c5State, where no
cpu series was ever created (deleting it is not an error) and the
starter_controlled series survives. -/
theorem c5_witness :
    ∃ s2, tick trivWorld c5State = .ok s2 ∧
      "A" ∉ s2.servers.map Prod.fst ∧
      hasSeries s2.metrics (MetricName.running, "A") = false ∧
      getSeries s2.metrics (MetricName.starter_controlled, "A") =
        getSeries c5State.metrics (MetricName.starter_controlled, "A") := by
  obtain ⟨s2, ht, q1, q2, _, _, _, _, _, _, _, q10, _⟩ :=
    c5_amended_retirement trivWorld c5State [] [] "A" (by decide) rfl
      (by simp) (by simp) rfl
  exact ⟨s2, ht, q1, q2, q10⟩

/-- C6 counterexample: with a failing Servers read at a refresh tick the
loop body raises, i.e. the reconciliation loop exits even though the
exporter process was not terminated externally; the claim states the
loop never exits except on process termination. -/
theorem c6_counterexample : tick failWorld c6State = .error () := rfl

/-- C6 (amended): a NoSuchProcess failure for server B is absorbed at
B's own boundary: server A's gauges for the same tick are still set to
the values freshly read from the World, exactly as they would be without
B, and the tick itself succeeds.  However, the reconciliation loop can
exit: a supervisor fetch failure on a refresh tick propagates uncaught
(see the counterexample). -/
theorem c6_amended_isolation (w : World) (s : EngineState)
    (pre post : List (String × Option Nat)) (A B : String) (pa pb : Nat)
    (h60 : ¬ s.i % 60 = 0)
    (hsv : s.servers = pre ++ (A, some pa) :: post)
    (hpost : A ∉ post.map Prod.fst)
    (haA : w.osAlive pa = true)
    (_hB : (B, some pb) ∈ pre ∨ (B, some pb) ∈ post)
    (_haB : w.osAlive pb = false) :
    ∃ s2, tick w s = .ok s2 ∧
      getSeries s2.metrics (MetricName.cpu_time_user, A) =
        some (w.cpuUser pa) ∧
      getSeries s2.metrics (MetricName.cpu_time_system, A) =
        some (w.cpuSystem pa) ∧
      getSeries s2.metrics (MetricName.cpu_percent, A) =
        some (w.cpuPercent pa) ∧
      getSeries s2.metrics (MetricName.mem_rss, A) = some (w.memRss pa) ∧
      getSeries s2.metrics (MetricName.threads_n, A) =
        some (w.numThreads pa) ∧
      getSeries s2.metrics (MetricName.dserver_ping, A) =
        some (if w.pingOk A then w.pingTime A else -1) ∧
      getSeries s2.metrics (MetricName.running, A) =
        some (if w.pingOk A then 1 else 0) := by
  obtain ⟨s2, ht, hinv, _⟩ :=
    tick_alive_series w s pre post A pa h60 hsv hpost haA
  obtain ⟨h1v, h1h, h2v, h2h, h3v, h3h, h4v, h4h, _, h6v, h6h,
    h7v, h7h, h8v, h8h, _⟩ := hinv
  exact ⟨s2, ht,
    getSeries_of_holdsAt _ _ _ h1h h1v,
    getSeries_of_holdsAt _ _ _ h2h h2v,
    getSeries_of_holdsAt _ _ _ h3h h3v,
    getSeries_of_holdsAt _ _ _ h4h h4v,
    getSeries_of_holdsAt _ _ _ h6h h6v,
    getSeries_of_holdsAt _ _ _ h7h h7v,
    getSeries_of_holdsAt _ _ _ h8h h8v⟩

/-- C6 witness: in c6PairState server B (dead PID 5) is iterated before
server A (live PID 7); A's gauges are still published. -/
theorem c6_witness :
    ∃ s2, tick c6AliveWorld c6PairState = .ok s2 ∧
      getSeries s2.metrics (MetricName.cpu_time_user, "A") = some 2 ∧
      getSeries s2.metrics (MetricName.running, "A") = some 1 := by
  obtain ⟨s2, ht, q1, _, _, _, _, _, q7⟩ :=
    c6_amended_isolation c6AliveWorld c6PairState [("B", some 5)] [] "A" "B"
      7 5 (by decide) rfl (by simp) rfl (Or.inl (by simp)) rfl
  exact ⟨s2, ht, q1, by simpa using q7⟩

/-- C7: for a tracked server with a live OS handle whose ping fails this
tick, the tick publishes running 0 and dserver_ping -1 while the
OS-level gauges keep the values freshly read this tick; the ping failure
does not discard them. -/
theorem c7_ping_failure (w : World) (s : EngineState)
    (pre post : List (String × Option Nat)) (srv : String) (pid : Nat)
    (h60 : ¬ s.i % 60 = 0)
    (hsv : s.servers = pre ++ (srv, some pid) :: post)
    (hpost : srv ∉ post.map Prod.fst)
    (ha : w.osAlive pid = true)
    (hping : w.pingOk srv = false) :
    ∃ s2, tick w s = .ok s2 ∧
      getSeries s2.metrics (MetricName.running, srv) = some 0 ∧
      getSeries s2.metrics (MetricName.dserver_ping, srv) = some (-1) ∧
      getSeries s2.metrics (MetricName.cpu_time_user, srv) =
        some (w.cpuUser pid) ∧
      getSeries s2.metrics (MetricName.cpu_time_system, srv) =
        some (w.cpuSystem pid) ∧
      getSeries s2.metrics (MetricName.cpu_percent, srv) =
        some (w.cpuPercent pid) ∧
      getSeries s2.metrics (MetricName.mem_rss, srv) =
        some (w.memRss pid) ∧
      getSeries s2.metrics (MetricName.threads_n, srv) =
        some (w.numThreads pid) ∧
      (∀ d, w.memData pid = some d →
        getSeries s2.metrics (MetricName.mem_data, srv) = some d) := by
  obtain ⟨s2, ht, hinv, _⟩ :=
    tick_alive_series w s pre post srv pid h60 hsv hpost ha
  obtain ⟨h1v, h1h, h2v, h2h, h3v, h3h, h4v, h4h, hmd, h6v, h6h,
    h7v, h7h, h8v, h8h, _⟩ := hinv
  simp only [hping, Bool.false_eq_true, if_false] at h7v h8v
  refine ⟨s2, ht,
    getSeries_of_holdsAt _ _ _ h8h h8v,
    getSeries_of_holdsAt _ _ _ h7h h7v,
    getSeries_of_holdsAt _ _ _ h1h h1v,
    getSeries_of_holdsAt _ _ _ h2h h2v,
    getSeries_of_holdsAt _ _ _ h3h h3v,
    getSeries_of_holdsAt _ _ _ h4h h4v,
    getSeries_of_holdsAt _ _ _ h6h h6v, ?_⟩
  intro d hd
  obtain ⟨hv, hh⟩ := hmd d hd
  exact getSeries_of_holdsAt _ _ _ hh hv

/-- C7 witness: the concrete c7World/c7State, where the process is alive
with readings but nothing pings. -/
theorem c7_witness :
    ∃ s2, tick c7World c7State = .ok s2 ∧
      getSeries s2.metrics (MetricName.running, "A") = some 0 ∧
      getSeries s2.metrics (MetricName.dserver_ping, "A") = some (-1) ∧
      getSeries s2.metrics (MetricName.cpu_time_user, "A") = some 2 := by
  obtain ⟨s2, ht, q1, q2, q3, _⟩ :=
    c7_ping_failure c7World c7State [] [] "A" 7 (by decide) rfl (by simp)
      rfl rfl
  exact ⟨s2, ht, q1, q2, q3⟩

/-- C8 counterexample: at refresh tick 60, with a previously held
snapshot in the state, a failing Servers read makes the whole tick
raise: the tick does not proceed and the failure propagates out of the
reconciliation loop, contrary to the claim. -/
theorem c8_counterexample : tick failWorld c8State = .error () := rfl

/-- C8 (amended): when the supervisor fetch fails on a refresh tick
(either the attribute read fails or a record is malformed), the
exception is uncaught: the tick returns the error instead of proceeding
with the previous snapshot, and the failure propagates out of the
reconciliation loop. -/
theorem c8_amended_propagation (w : World) (s : EngineState)
    (h : s.i % 60 = 0)
    (hfail : w.starterLines = none ∨
      ∃ lines e, w.starterLines = some lines ∧
        get_starter_servers lines = .error e) :
    ∃ e, tick w s = .error e := by
  rcases hfail with hl | ⟨lines, e, hl, hst⟩
  · exact ⟨(), tick_refresh_fail w s h hl⟩
  · exact ⟨e, tick_refresh_parse_fail w s lines e h hl hst⟩

/-- C8 witness: the amended propagation at the concrete failing World
and refresh state. -/
theorem c8_witness : ∃ e, tick failWorld c8State = .error e :=
  c8_amended_propagation failWorld c8State (by decide) (Or.inl rfl)

end TangoExporter
